import Mathlib

/-!
Verification of the attempt-verification-and-semantic-annotation pipeline of the
Addition-ITS-System repository (src/app.py, src/config.py), as a shallow embedding.

The embedding mirrors, from the source:
* the decimal rendering of integers performed by Python f-strings (str()),
  used in the IRI minting at src/app.py lines 168-171;
* the IRI minting and triple construction of the annotation block (lines 163-188);
* the check-answer handler (lines 145-194): form parsing via int(), evaluation,
  persistence, annotation, and the JSON payload;
* infer_base_iri (lines 25-40);
* the dashboard query (lines 99-103): filter by user, order by timestamp
  descending, paginate.
-/

/-! ### Decimal rendering: model of Python str() on integers -/

/-- Character of a single decimal digit, as produced by Python str(). -/
def digitChar (d : Nat) : Char := Char.ofNat (48 + d)

/-- Fuel-driven decimal rendering of a natural number, most significant digit
first.  Structural in the fuel so that the kernel can evaluate it. -/
def natDigitsAux : Nat → Nat → List Char
  | 0, _ => []
  | fuel + 1, n =>
    if n < 10 then [digitChar n]
    else natDigitsAux fuel (n / 10) ++ [digitChar (n % 10)]

/-- Decimal digits of a natural number: model of Python str(n) for n ≥ 0. -/
def natDigits (n : Nat) : List Char := natDigitsAux (n + 1) n

/-- Model of Python str(i) for an arbitrary integer: a minus sign followed by
the digits when negative, the digits alone otherwise. -/
def intChars : Int → List Char
  | .ofNat n => natDigits n
  | .negSucc n => '-' :: natDigits (n + 1)

/-- String form of a natural number (Python str). -/
def natStr (n : Nat) : String := ⟨natDigits n⟩

/-- String form of an integer (Python str). -/
def intStr (i : Int) : String := ⟨intChars i⟩

/-- Proof helper: decimal value of a digit list, a left inverse of natDigits. -/
def decimalVal (l : List Char) : Nat :=
  l.foldl (fun acc c => acc * 10 + (c.toNat - 48)) 0

/-! ### IRI minting (src/app.py lines 44-45 and 167-171) -/

/-- MATH[name]: rdflib Namespace lookup concatenates the base IRI and the local
name (src/app.py line 45). -/
def mathIRI (base localName : String) : String := base ++ localName

/-- Expression instance IRI: MATH of the f-string Expr_{attempt.id}
(src/app.py line 168). -/
def exprIRI (base : String) (attemptId : Nat) : String :=
  mathIRI base ("Expr_" ++ natStr attemptId)

/-- Number instance IRI: MATH of the f-string Num_{value}_{attempt.id}
(src/app.py lines 169-171). -/
def numIRI (base : String) (v : Int) (attemptId : Nat) : String :=
  mathIRI base ("Num_" ++ intStr v ++ "_" ++ natStr attemptId)

/-- The four instance IRIs minted for one attempt (src/app.py lines 168-171):
expression, operand a, operand b, result (the student's answer). -/
def mintedIRIs (base : String) (attemptId : Nat) (a b s : Int) : List String :=
  [exprIRI base attemptId, numIRI base a attemptId, numIRI base b attemptId,
    numIRI base s attemptId]

/-! ### Semantic graph (src/app.py lines 164-185) -/

/-- A graph node: an IRI or an xsd:integer literal. -/
inductive Node where
  | iri : String → Node
  | lit : Int → Node
deriving DecidableEq, Repr

/-- An RDF triple (subject, predicate, object). -/
abbrev Triple := Node × Node × Node

/-- The rdf:type predicate IRI (RDF.type in rdflib). -/
def rdfTypeIRI : String := "http://www.w3.org/1999/02/22-rdf-syntax-ns#type"

/-- The triples asserted for one attempt, in the order of the g.add calls of
src/app.py lines 174-185.  rdflib stores a graph as a set of triples; the list
here records exactly which triples are added. -/
def annotateTriples (base : String) (attemptId : Nat) (a b s : Int) : List Triple :=
  let expr := Node.iri (exprIRI base attemptId)
  let numA := Node.iri (numIRI base a attemptId)
  let numB := Node.iri (numIRI base b attemptId)
  let numRes := Node.iri (numIRI base s attemptId)
  [ (expr, Node.iri rdfTypeIRI, Node.iri (mathIRI base "AdditionExpression")),
    (expr, Node.iri (mathIRI base "hasAdded"), numA),
    (expr, Node.iri (mathIRI base "hasAdded"), numB),
    (expr, Node.iri (mathIRI base "hasResult"), numRes),
    (numA, Node.iri rdfTypeIRI, Node.iri (mathIRI base "Number")),
    (numB, Node.iri rdfTypeIRI, Node.iri (mathIRI base "Number")),
    (numRes, Node.iri rdfTypeIRI, Node.iri (mathIRI base "Number")),
    (numA, Node.iri (mathIRI base "hasValue"), Node.lit a),
    (numB, Node.iri (mathIRI base "hasValue"), Node.lit b),
    (numRes, Node.iri (mathIRI base "hasValue"), Node.lit s) ]

/-! ### Persistence model (src/app.py lines 69-77 and 152-161) -/

/-- One row of the attempt table (src/app.py lines 69-77). -/
structure AttemptRec where
  id : Nat
  user_id : Nat
  a : Int
  b : Int
  student_answer : Int
  correct_answer : Int
  is_correct : Bool
  timestamp : Nat
deriving DecidableEq, Repr

/-- The attempt table: the next autoincrement id and the committed rows. -/
structure Db where
  next_id : Nat
  rows : List AttemptRec
deriving DecidableEq, Repr

/-! ### The check-answer handler (src/app.py lines 143-194) -/

/-- The three form fields read by check_answer (src/app.py lines 146-148). -/
structure Form where
  a : String
  b : String
  answer : String

/-- A JSON value as produced by jsonify at src/app.py lines 190-194. -/
inductive Json where
  | bool : Bool → Json
  | int : Int → Json
  | str : String → Json
deriving DecidableEq, Repr

/-- Numeric value of a decimal digit character, none otherwise. -/
def digitVal? (c : Char) : Option Nat :=
  if 48 ≤ c.toNat ∧ c.toNat ≤ 57 then some (c.toNat - 48) else none

/-- Proof helper for pyInt?: read a nonempty digit sequence left to right. -/
def parseDigitsAux : List Char → Nat → Option Nat
  | [], acc => some acc
  | c :: cs, acc =>
    match digitVal? c with
    | some d => parseDigitsAux cs (acc * 10 + d)
    | none => none

/-- Model of the Python int() builtin applied to a form string (src/app.py
lines 146-148): an optional sign followed by at least one decimal digit parses
to that integer, anything else raises ValueError (modelled as none).  Python
also tolerates surrounding whitespace and underscore digit grouping; those
inputs play no part in any claim and are modelled as rejected. -/
def pyInt? (str : String) : Option Int :=
  match str.data with
  | [] => none
  | ['-'] => none
  | ['+'] => none
  | '-' :: c :: cs => (parseDigitsAux (c :: cs) 0).map (fun n => -(n : Int))
  | '+' :: c :: cs => (parseDigitsAux (c :: cs) 0).map (fun n => (n : Int))
  | c :: cs => (parseDigitsAux (c :: cs) 0).map (fun n => (n : Int))

/-- The message field of the response (src/app.py line 193). -/
def mkMessage (a b correct : Int) (isCorrect : Bool) : String :=
  if isCorrect then
    "✅ Correct! " ++ intStr a ++ " + " ++ intStr b ++ " = " ++ intStr correct
  else
    "❌ Try again. " ++ intStr a ++ " + " ++ intStr b ++ " = " ++ intStr correct

/-- The evaluation of a submitted answer (src/app.py lines 149-150):
correct = a + b, is_correct = (student_ans == correct). -/
def evaluate (a b s : Int) : Int × Bool := (a + b, s == a + b)

/-- The check_answer handler (src/app.py lines 145-194).  Returns the attempt
table after the request together with either the JSON payload or the name of
the uncaught Python exception.  Parsing failure of any form field raises
before anything else runs; the attempt row is committed before the annotation
block; serialization (line 188) is the only fallible annotation step and is
modelled by the serializeOk oracle — when it raises, the exception escapes the
handler (there is no try/except) but the committed row stays. -/
def checkAnswer (base : String) (db : Db) (uid : Nat) (form : Form) (ts : Nat)
    (serializeOk : Bool) : Db × Except String (List (String × Json)) :=
  match pyInt? form.a, pyInt? form.b, pyInt? form.answer with
  | some a, some b, some s =>
    let correct := a + b
    let isCorrect := s == correct
    let att : AttemptRec :=
      ⟨db.next_id, uid, a, b, s, correct, isCorrect, ts⟩
    let db' : Db := ⟨db.next_id + 1, db.rows ++ [att]⟩
    let _g := annotateTriples base att.id a b s
    if serializeOk then
      (db', .ok [("correct", .bool isCorrect), ("answer", .int correct),
        ("message", .str (mkMessage a b correct isCorrect))])
    else
      (db', .error "AnnotationError")
  | _, _, _ => (db, .error "ValueError")

/-! ### Event trace of check_answer (temporal claims) -/

/-- The observable steps of one check_answer invocation, in source order
(src/app.py lines 146-194). -/
inductive Ev where
  | parseForm
  | evalAnswer
  | dbAdd
  | dbCommit
  | graphCreate
  | graphBindNs
  | mintIRIs
  | addTriples
  | serializeGraph
  | printGraph
  | jsonResponse
deriving DecidableEq, Repr

/-- The steps that belong to the semantic-annotation block
(src/app.py lines 164-188). -/
def isAnnotStep : Ev → Bool
  | .graphCreate => true
  | .graphBindNs => true
  | .mintIRIs => true
  | .addTriples => true
  | .serializeGraph => true
  | _ => false

/-- The event trace of check_answer, by the source order of src/app.py lines
146-194: parsing (146-148), evaluation (149-150), session add (160), commit
(161), graph creation (164), namespace bind (165), IRI minting (168-171),
triple assertions (174-185), serialization (188), print (187-188), response
(190-194).  A parse failure raises at once; a serialization failure raises
after the serialize step. -/
def checkAnswerTrace (parseOk serializeOk : Bool) : List Ev :=
  if parseOk then
    [.parseForm, .evalAnswer, .dbAdd, .dbCommit, .graphCreate, .graphBindNs,
      .mintIRIs, .addTriples, .serializeGraph] ++
      (if serializeOk then [.printGraph, .jsonResponse] else [])
  else
    [.parseForm]

/-! ### Base-IRI inference (src/app.py lines 25-40) -/

/-- An rdflib graph as seen by infer_base_iri: its namespace bindings in
iteration order (prefix, IRI) and its identifier.  none models an absent or
falsy identifier; some "" models a present but empty one (also falsy in
Python). -/
structure RGraph where
  namespaces : List (Option String × String)
  identifier : Option String

/-- Model of Python str.endswith applied with "#". -/
def endsHash (s : String) : Bool := s.data.getLast? == some '#'

/-- Normalization of src/app.py lines 34 and 38: append '#' unless present. -/
def normHash (iri : String) : String := if endsHash iri then iri else iri ++ "#"

/-- The hardcoded fallback IRI of src/app.py line 40. -/
def defaultIRI : String :=
  "http://www.semanticweb.org/nitesh/ontologies/2025/11/math-addition#"

/-- The loop of src/app.py lines 31-34: first namespace binding whose prefix
is "", None or "math-addition". -/
def findMatchingNs : List (Option String × String) → Option String
  | [] => none
  | (p, uri) :: rest =>
    if p = none ∨ p = some "" ∨ p = some "math-addition" then some uri
    else findMatchingNs rest

/-- infer_base_iri (src/app.py lines 25-40): first matching namespace binding,
else the graph identifier when truthy, else the hardcoded default; the result
is normalized to end with '#'. -/
def infer_base_iri (g : RGraph) : String :=
  match findMatchingNs g.namespaces with
  | some uri => normHash uri
  | none =>
    match g.identifier with
    | some s => if s = "" then defaultIRI else normHash s
    | none => defaultIRI

/-! ### Dashboard listing (src/app.py lines 94-108) -/

/-- Sortedness produced by order_by(Attempt.timestamp.desc()): each later item
has a timestamp no greater than any earlier one. -/
def sortedByTimestampDesc (l : List AttemptRec) : Prop :=
  List.Pairwise (fun x y => y.timestamp ≤ x.timestamp) l

/-- The ordering the spec claims: timestamp descending with ties broken by
identifier descending. -/
def newestFirstIdTie (l : List AttemptRec) : Prop :=
  List.Pairwise
    (fun x y => y.timestamp < x.timestamp ∨
      (y.timestamp = x.timestamp ∧ y.id < x.id)) l

/-- The dashboard query (src/app.py lines 99-103) before pagination: SQL
guarantees exactly that the result is a permutation of the user's rows that is
non-increasing in timestamp; the order of rows with equal timestamps is not
specified by the query. -/
def dashboardValid (table : List AttemptRec) (uid : Nat) (out : List AttemptRec) : Prop :=
  List.Perm out (table.filter (fun r => r.user_id == uid)) ∧ sortedByTimestampDesc out

/-- paginate(page=page, per_page=per) item slice (src/app.py line 102). -/
def paginateItems (l : List AttemptRec) (page per : Nat) : List AttemptRec :=
  (l.drop ((page - 1) * per)).take per

/-- A concrete attempt row for test instances: identifier, user, timestamp,
with fixed problem data 1 + 1 answered 2. -/
def mkRec (id uid ts : Nat) : AttemptRec := ⟨id, uid, 1, 1, 2, 2, true, ts⟩

/-! ### Lemmas on the decimal rendering -/

theorem natDigitsAux_fuel {f₁ f₂ n : Nat} (h₁ : n < f₁) (h₂ : n < f₂) :
    natDigitsAux f₁ n = natDigitsAux f₂ n := by
  induction f₁ generalizing f₂ n with
  | zero => omega
  | succ g ih =>
    match f₂, h₂ with
    | k + 1, _ =>
      by_cases hn : n < 10
      · simp [natDigitsAux, hn]
      · have hd : n / 10 < n := Nat.div_lt_self (by omega) (by omega)
        simp only [natDigitsAux, if_neg hn]
        rw [@ih k (n / 10) (by omega) (by omega)]

theorem natDigits_lt {n : Nat} (h : n < 10) : natDigits n = [digitChar n] := by
  simp [natDigits, natDigitsAux, h]

theorem natDigits_ge {n : Nat} (h : 10 ≤ n) :
    natDigits n = natDigits (n / 10) ++ [digitChar (n % 10)] := by
  have hd : n / 10 < n := Nat.div_lt_self (by omega) (by omega)
  show natDigitsAux (n + 1) n = natDigitsAux (n / 10 + 1) (n / 10) ++ [digitChar (n % 10)]
  rw [natDigitsAux]
  rw [if_neg (by omega : ¬ n < 10)]
  rw [@natDigitsAux_fuel n (n / 10 + 1) (n / 10) (by omega) (by omega)]

theorem digitChar_toNat {d : Nat} (h : d < 10) : (digitChar d).toNat = 48 + d := by
  interval_cases d <;> decide

theorem natDigits_mem_bound : ∀ n : Nat, ∀ c ∈ natDigits n, 48 ≤ c.toNat ∧ c.toNat ≤ 57 := by
  intro n
  induction n using Nat.strong_induction_on with
  | _ n ih =>
    intro c hc
    by_cases h : n < 10
    · rw [natDigits_lt h] at hc
      simp only [List.mem_singleton] at hc
      subst hc
      have := digitChar_toNat h
      omega
    · rw [natDigits_ge (by omega)] at hc
      rcases List.mem_append.1 hc with h1 | h2
      · exact ih (n / 10) (Nat.div_lt_self (by omega) (by omega)) c h1
      · simp only [List.mem_singleton] at h2
        subst h2
        have := digitChar_toNat (Nat.mod_lt n (by omega))
        omega

theorem natDigits_ne_nil (n : Nat) : natDigits n ≠ [] := by
  by_cases h : n < 10
  · rw [natDigits_lt h]; simp
  · rw [natDigits_ge (by omega)]; simp

theorem decimalVal_natDigits : ∀ n : Nat, decimalVal (natDigits n) = n := by
  intro n
  induction n using Nat.strong_induction_on with
  | _ n ih =>
    by_cases h : n < 10
    · rw [natDigits_lt h]
      simp [decimalVal, digitChar_toNat h]
    · rw [natDigits_ge (by omega)]
      have hd : n / 10 < n := Nat.div_lt_self (by omega) (by omega)
      have hm : n % 10 < 10 := Nat.mod_lt n (by omega)
      have hrec := ih (n / 10) hd
      simp only [decimalVal, List.foldl_append] at hrec ⊢
      rw [hrec]
      simp [List.foldl, digitChar_toNat hm]
      omega

theorem natDigits_inj {m n : Nat} (h : natDigits m = natDigits n) : m = n := by
  have h1 := decimalVal_natDigits m
  have h2 := decimalVal_natDigits n
  rw [h] at h1
  omega

theorem natDigits_no_underscore {n : Nat} {c : Char} (hc : c ∈ natDigits n) :
    c ≠ '_' := by
  have hb := natDigits_mem_bound n c hc
  intro he
  subst he
  have h95 : ('_').toNat = 95 := rfl
  omega

theorem natDigits_no_minus {n : Nat} {c : Char} (hc : c ∈ natDigits n) :
    c ≠ '-' := by
  have hb := natDigits_mem_bound n c hc
  intro he
  subst he
  have h45 : ('-').toNat = 45 := rfl
  omega

theorem intChars_no_underscore {i : Int} {c : Char} (hc : c ∈ intChars i) :
    c ≠ '_' := by
  match i with
  | .ofNat n => exact natDigits_no_underscore hc
  | .negSucc n =>
    simp only [intChars, List.mem_cons] at hc
    rcases hc with h | h
    · subst h; decide
    · exact natDigits_no_underscore h

theorem intChars_inj {i j : Int} (h : intChars i = intChars j) : i = j := by
  match i, j with
  | .ofNat m, .ofNat n =>
    simp only [intChars] at h
    exact congrArg Int.ofNat (natDigits_inj h)
  | .negSucc m, .negSucc n =>
    simp only [intChars, List.cons.injEq, true_and] at h
    have hmn := natDigits_inj h
    exact congrArg Int.negSucc (by omega)
  | .ofNat m, .negSucc n =>
    exfalso
    have hm : '-' ∈ natDigits m := by
      simp only [intChars] at h
      rw [h]
      exact List.mem_cons_self _ _
    exact natDigits_no_minus hm rfl
  | .negSucc m, .ofNat n =>
    exfalso
    have hm : '-' ∈ natDigits n := by
      simp only [intChars] at h
      rw [← h]
      exact List.mem_cons_self _ _
    exact natDigits_no_minus hm rfl

/-! ### Lemmas on IRI strings -/

theorem numIRI_data (base : String) (v : Int) (id : Nat) :
    (numIRI base v id).data =
      base.data ++ 'N' :: 'u' :: 'm' :: '_' :: (intChars v ++ '_' :: natDigits id) := by
  have h1 : ("Num_" : String).data = ['N', 'u', 'm', '_'] := rfl
  have h2 : ("_" : String).data = ['_'] := rfl
  simp [numIRI, mathIRI, natStr, intStr, String.data_append, h1, h2]

theorem exprIRI_data (base : String) (id : Nat) :
    (exprIRI base id).data =
      base.data ++ 'E' :: 'x' :: 'p' :: 'r' :: '_' :: natDigits id := by
  have h1 : ("Expr_" : String).data = ['E', 'x', 'p', 'r', '_'] := rfl
  simp [exprIRI, mathIRI, natStr, String.data_append, h1]

theorem underscore_split {l₁ r₁ l₂ r₂ : List Char}
    (h₁ : '_' ∉ r₁) (h₂ : '_' ∉ r₂)
    (he : l₁ ++ '_' :: r₁ = l₂ ++ '_' :: r₂) : l₁ = l₂ ∧ r₁ = r₂ := by
  induction l₁ generalizing l₂ with
  | nil =>
    cases l₂ with
    | nil => simpa using he
    | cons c t =>
      exfalso
      simp only [List.nil_append, List.cons_append, List.cons.injEq] at he
      apply h₁
      rw [he.2]
      exact List.mem_append_right t (List.mem_cons_self _ _)
  | cons c t ih =>
    cases l₂ with
    | nil =>
      exfalso
      simp only [List.nil_append, List.cons_append, List.cons.injEq] at he
      apply h₂
      rw [← he.2]
      exact List.mem_append_right t (List.mem_cons_self _ _)
    | cons d u =>
      simp only [List.cons_append, List.cons.injEq] at he
      obtain ⟨hcd, htail⟩ := he
      obtain ⟨hlu, hr⟩ := ih htail
      exact ⟨by rw [hcd, hlu], hr⟩

theorem numIRI_inj {base : String} {v v' : Int} {id id' : Nat}
    (h : numIRI base v id = numIRI base v' id') : v = v' ∧ id = id' := by
  have hd := congrArg String.data h
  rw [numIRI_data, numIRI_data] at hd
  have h2 := List.append_cancel_left hd
  simp only [List.cons.injEq, true_and] at h2
  have h3 := underscore_split
    (fun hm => natDigits_no_underscore hm rfl)
    (fun hm => natDigits_no_underscore hm rfl) h2
  exact ⟨intChars_inj h3.1, natDigits_inj h3.2⟩

theorem exprIRI_inj {base : String} {id id' : Nat}
    (h : exprIRI base id = exprIRI base id') : id = id' := by
  have hd := congrArg String.data h
  rw [exprIRI_data, exprIRI_data] at hd
  have h2 := List.append_cancel_left hd
  simp only [List.cons.injEq, true_and] at h2
  exact natDigits_inj h2

theorem exprIRI_ne_numIRI (base : String) (id id' : Nat) (v : Int) :
    exprIRI base id ≠ numIRI base v id' := by
  intro h
  have hd := congrArg String.data h
  rw [exprIRI_data, numIRI_data] at hd
  have h2 := List.append_cancel_left hd
  simp only [List.cons.injEq] at h2
  exact absurd h2.1 (by decide)

/-! ### Claim theorems -/

/-- C3 counterexample: the claim asserts the minted IRIs are pairwise distinct
within an attempt, but for attempt 1 with a = 2, b = 2, submitted = 4 the two
operand IRIs are the same string Num_2_1, so the four minted IRIs are not
pairwise distinct. -/
theorem c3_counterexample :
    ¬ List.Pairwise (fun x y => x ≠ y) (mintedIRIs "m#" 1 2 2 4) := by
  decide

/-- C3 amended: IRIs minted for distinct attempts never collide; within one
attempt the expression IRI differs from every number IRI, and two number IRIs
of the same attempt coincide exactly when their values coincide (so all four
are distinct whenever a, b, submitted are pairwise distinct). -/
theorem c3_amended_iri_uniqueness :
    ∀ (base : String) (id id' : Nat) (a b s a' b' s' : Int),
      (id ≠ id' →
        ∀ x ∈ mintedIRIs base id a b s, ∀ y ∈ mintedIRIs base id' a' b' s', x ≠ y)
      ∧ (∀ v : Int, exprIRI base id ≠ numIRI base v id)
      ∧ (∀ v v' : Int, numIRI base v id = numIRI base v' id ↔ v = v') := by
  intro base id id' a b s a' b' s'
  refine ⟨?_, ?_, ?_⟩
  · intro hne x hx y hy
    simp only [mintedIRIs, List.mem_cons, List.not_mem_nil, or_false] at hx hy
    rcases hx with rfl | rfl | rfl | rfl <;> rcases hy with rfl | rfl | rfl | rfl <;>
      first
        | exact fun h => hne (exprIRI_inj h)
        | exact exprIRI_ne_numIRI base id id' _
        | exact fun h => exprIRI_ne_numIRI base id' id _ h.symm
        | exact fun h => hne (numIRI_inj h).2
  · intro v
    exact exprIRI_ne_numIRI base id id v
  · intro v v'
    exact ⟨fun h => (numIRI_inj h).1, fun h => by rw [h]⟩

theorem c3_amended_witness : exprIRI "m#" 1 ≠ exprIRI "m#" 2 :=
  (c3_amended_iri_uniqueness "m#" 1 2 5 6 11 5 6 11).1 (by decide)
    (exprIRI "m#" 1) (by simp [mintedIRIs]) (exprIRI "m#" 2) (by simp [mintedIRIs])

/-- C9: annotation is deterministic and idempotent: two runs of the annotation
block with the same attemptId, a, b, submitted assert exactly the same triples
— the graph is a function of these arguments and the fixed base IRI only. -/
theorem c9_annotate_deterministic :
    ∀ (base : String) (id id' : Nat) (a b s a' b' s' : Int),
      id = id' → a = a' → b = b' → s = s' →
      annotateTriples base id a b s = annotateTriples base id' a' b' s'
      ∧ ∀ t : Triple,
          t ∈ annotateTriples base id a b s ↔ t ∈ annotateTriples base id' a' b' s' := by
  intro base id id' a b s a' b' s' h1 h2 h3 h4
  subst h1; subst h2; subst h3; subst h4
  exact ⟨rfl, fun t => Iff.rfl⟩

theorem c9_witness :
    annotateTriples "m#" 1 3 4 7 = annotateTriples "m#" 1 3 4 7 :=
  (c9_annotate_deterministic "m#" 1 1 3 4 7 3 4 7 rfl rfl rfl rfl).1

/-- C10 counterexample: for attempt 1 with a = 5, b = 0, submitted = 3 the
attempt is incorrect (3 is not 5 + 0), yet the graph contains a hasValue triple
carrying the literal 5 + 0 (the triple of operand a), so "no triple records the
correct sum" fails. -/
theorem c10_counterexample :
    ¬ ((3 : Int) = 5 + 0)
    ∧ (Node.iri (numIRI "m#" 5 1), Node.iri (mathIRI "m#" "hasValue"),
        Node.lit (5 + 0)) ∈ annotateTriples "m#" 1 5 0 3 := by
  refine ⟨by decide, ?_⟩
  show _ ∈ annotateTriples "m#" 1 5 0 3
  decide

/-- C10 amended: the result Number instance carries the submitted answer as its
hasValue literal, and when the attempt is incorrect and neither operand is zero
no triple of the graph carries the literal a + b (the sum can appear only as an
operand value, when a = 0 or b = 0). -/
theorem c10_amended_result_value :
    ∀ (base : String) (id : Nat) (a b s : Int),
      (Node.iri (numIRI base s id), Node.iri (mathIRI base "hasValue"), Node.lit s)
        ∈ annotateTriples base id a b s
      ∧ (s ≠ a + b → a ≠ 0 → b ≠ 0 →
          ∀ subj pred : Node,
            (subj, pred, Node.lit (a + b)) ∉ annotateTriples base id a b s) := by
  intro base id a b s
  constructor
  · simp [annotateTriples]
  · intro hs ha hb subj pred hmem
    simp only [annotateTriples, List.mem_cons, List.not_mem_nil, or_false] at hmem
    rcases hmem with h | h | h | h | h | h | h | h | h | h <;>
      have hv := congrArg (fun t : Triple => t.2.2) h <;>
      simp only at hv <;>
      first
        | exact Node.noConfusion hv
        | (injection hv with hv2; omega)

theorem c10_amended_witness :
    ((Node.iri (numIRI "m#" 3 1), Node.iri (mathIRI "m#" "hasValue"), Node.lit 3)
      ∈ annotateTriples "m#" 1 5 4 3)
    ∧ (Node.iri "q", Node.iri "p", Node.lit (5 + 4)) ∉ annotateTriples "m#" 1 5 4 3 := by
  have h := c10_amended_result_value "m#" 1 5 4 3
  exact ⟨h.1, h.2 (by decide) (by decide) (by decide) (Node.iri "q") (Node.iri "p")⟩

/-- C1: the check-answer evaluation computes correct = a + b and
is_correct = (s == correct), and the Attempt row persisted for the request
stores correct_answer = a + b (appended to the committed rows whatever the
outcome of the later annotation step). -/
theorem c1_evaluate_and_persist :
    ∀ (base : String) (db : Db) (uid : Nat) (fa fb fs : String) (a b s : Int)
      (ts : Nat) (ok : Bool),
      pyInt? fa = some a → pyInt? fb = some b → pyInt? fs = some s →
      (evaluate a b s).1 = a + b
      ∧ ((evaluate a b s).2 = true ↔ s = a + b)
      ∧ (checkAnswer base db uid ⟨fa, fb, fs⟩ ts ok).1.rows
          = db.rows ++ [⟨db.next_id, uid, a, b, s, a + b, s == a + b, ts⟩] := by
  intro base db uid fa fb fs a b s ts ok hfa hfb hfs
  refine ⟨rfl, ?_, ?_⟩
  · simp [evaluate]
  · cases ok <;> simp [checkAnswer, hfa, hfb, hfs]

theorem c1_witness :
    (evaluate 3 4 7).1 = 3 + 4
    ∧ ((evaluate 3 4 7).2 = true ↔ (7 : Int) = 3 + 4)
    ∧ (checkAnswer "m#" ⟨1, []⟩ 9 ⟨"3", "4", "7"⟩ 0 true).1.rows
        = (⟨1, []⟩ : Db).rows ++ [⟨1, 9, 3, 4, 7, 3 + 4, (7 : Int) == 3 + 4, 0⟩] :=
  c1_evaluate_and_persist "m#" ⟨1, []⟩ 9 "3" "4" "7" 3 4 7 0 true rfl rfl rfl

/-- C2 counterexample: at a = 3, b = 4, submitted = 7 the payload has no
is_correct key at all, and its correct key holds the boolean true rather than
the integer 7 — the keys the code emits are correct (bool), answer (int),
message (string). -/
theorem c2_counterexample :
    ((checkAnswer "m#" ⟨1, []⟩ 7 ⟨"3", "4", "7"⟩ 0 true).2.map
        (fun p => p.lookup "is_correct") = .ok none)
    ∧ ((checkAnswer "m#" ⟨1, []⟩ 7 ⟨"3", "4", "7"⟩ 0 true).2.map
        (fun p => p.lookup "correct") = .ok (some (Json.bool true))) :=
  ⟨rfl, rfl⟩

/-- C2 amended: the payload shape is correct: bool, answer: int, message:
string; for a = 3, b = 4, submitted = 7 it carries correct: true, answer: 7,
and for submitted = 8 it carries correct: false, answer: 7. -/
theorem c2_amended_payload :
    (∀ (base : String) (db : Db) (uid : Nat) (fa fb fs : String) (a b s : Int)
      (ts : Nat),
      pyInt? fa = some a → pyInt? fb = some b → pyInt? fs = some s →
      (checkAnswer base db uid ⟨fa, fb, fs⟩ ts true).2 =
        .ok [("correct", Json.bool (s == a + b)), ("answer", Json.int (a + b)),
          ("message", Json.str (mkMessage a b (a + b) (s == a + b)))])
    ∧ (checkAnswer "m#" ⟨1, []⟩ 7 ⟨"3", "4", "7"⟩ 0 true).2.map
        (fun p => (p.lookup "correct", p.lookup "answer")) =
        .ok (some (Json.bool true), some (Json.int 7))
    ∧ (checkAnswer "m#" ⟨1, []⟩ 7 ⟨"3", "4", "8"⟩ 0 true).2.map
        (fun p => (p.lookup "correct", p.lookup "answer")) =
        .ok (some (Json.bool false), some (Json.int 7)) := by
  refine ⟨?_, rfl, rfl⟩
  intro base db uid fa fb fs a b s ts hfa hfb hfs
  simp [checkAnswer, hfa, hfb, hfs]

theorem c2_amended_witness :
    (checkAnswer "m#" ⟨1, []⟩ 7 ⟨"3", "4", "8"⟩ 0 true).2 =
      .ok [("correct", Json.bool ((8 : Int) == 3 + 4)), ("answer", Json.int (3 + 4)),
        ("message", Json.str (mkMessage 3 4 (3 + 4) ((8 : Int) == 3 + 4)))] :=
  c2_amended_payload.1 "m#" ⟨1, []⟩ 7 "3" "4" "8" 3 4 8 0 rfl rfl rfl

/-- C5 counterexample: check_answer has no try/except around the annotation
block, so when serialization raises, the exception escapes the handler (the
caller gets no payload) even though the attempt row was already committed. -/
theorem c5_counterexample :
    (checkAnswer "m#" ⟨1, []⟩ 7 ⟨"3", "4", "7"⟩ 0 false).2 = .error "AnnotationError"
    ∧ (checkAnswer "m#" ⟨1, []⟩ 7 ⟨"3", "4", "7"⟩ 0 false).1.rows
        = [⟨1, 7, 3, 4, 7, 7, true, 0⟩] :=
  ⟨rfl, rfl⟩

/-- C5 amended: an annotation/serialization failure propagates out of the
handler (the request fails, no payload is returned), but the persisted Attempt
is not rolled back — the row committed before the annotation block stays; on a
successful serialization the payload is returned. -/
theorem c5_amended_annot_failure :
    ∀ (base : String) (db : Db) (uid : Nat) (fa fb fs : String) (a b s : Int)
      (ts : Nat),
      pyInt? fa = some a → pyInt? fb = some b → pyInt? fs = some s →
      (checkAnswer base db uid ⟨fa, fb, fs⟩ ts false).2 = .error "AnnotationError"
      ∧ (checkAnswer base db uid ⟨fa, fb, fs⟩ ts false).1.rows
          = db.rows ++ [⟨db.next_id, uid, a, b, s, a + b, s == a + b, ts⟩]
      ∧ ∃ p, (checkAnswer base db uid ⟨fa, fb, fs⟩ ts true).2 = .ok p := by
  intro base db uid fa fb fs a b s ts hfa hfb hfs
  refine ⟨?_, ?_, ?_⟩
  · simp [checkAnswer, hfa, hfb, hfs]
  · simp [checkAnswer, hfa, hfb, hfs]
  · exact ⟨[("correct", Json.bool (s == a + b)), ("answer", Json.int (a + b)),
      ("message", Json.str (mkMessage a b (a + b) (s == a + b)))],
      by simp [checkAnswer, hfa, hfb, hfs]⟩

theorem c5_amended_witness :
    (checkAnswer "m#" ⟨2, []⟩ 4 ⟨"1", "2", "3"⟩ 5 false).2 = .error "AnnotationError"
    ∧ (checkAnswer "m#" ⟨2, []⟩ 4 ⟨"1", "2", "3"⟩ 5 false).1.rows
        = (⟨2, []⟩ : Db).rows ++ [⟨2, 4, 1, 2, 3, 1 + 2, (3 : Int) == 1 + 2, 5⟩]
    ∧ ∃ p, (checkAnswer "m#" ⟨2, []⟩ 4 ⟨"1", "2", "3"⟩ 5 true).2 = .ok p :=
  c5_amended_annot_failure "m#" ⟨2, []⟩ 4 "1" "2" "3" 1 2 3 5 rfl rfl rfl

/-- C8 counterexample: a non-numeric operand makes int() raise an uncaught
ValueError — the request dies as a server fault (no validation message, no
payload); the only part of the claim that holds is that nothing is evaluated
or persisted. -/
theorem c8_counterexample :
    (checkAnswer "m#" ⟨1, []⟩ 7 ⟨"x", "4", "7"⟩ 0 true).2 = .error "ValueError"
    ∧ (checkAnswer "m#" ⟨1, []⟩ 7 ⟨"x", "4", "7"⟩ 0 true).1 = ⟨1, []⟩ :=
  ⟨rfl, rfl⟩

/-- C8 amended: a non-numeric operand or answer field makes int() raise before
evaluation or persistence (the table is unchanged, no attempt row is written),
but the failure is an unhandled exception surfacing as a server fault, not a
user-visible validation failure. -/
theorem c8_amended_parse_failure :
    ∀ (base : String) (db : Db) (uid : Nat) (fa fb fs : String) (ts : Nat)
      (ok : Bool),
      (pyInt? fa = none ∨ pyInt? fb = none ∨ pyInt? fs = none) →
      checkAnswer base db uid ⟨fa, fb, fs⟩ ts ok = (db, .error "ValueError") := by
  intro base db uid fa fb fs ts ok h
  cases h1 : pyInt? fa <;> cases h2 : pyInt? fb <;> cases h3 : pyInt? fs <;>
    simp_all [checkAnswer]

theorem c8_amended_witness :
    checkAnswer "m#" ⟨5, []⟩ 2 ⟨"7", "oops", "9"⟩ 3 true = (⟨5, []⟩, .error "ValueError") :=
  c8_amended_parse_failure "m#" ⟨5, []⟩ 2 "7" "oops" "9" 3 true (Or.inr (Or.inl rfl))

/-- C6: in every invocation of check_answer the database add and commit occur
strictly before every step of the annotation block (graph creation, namespace
bind, IRI minting, triple assertion, serialization), on both the successful
and the failing serialization path. -/
theorem c6_commit_before_annot :
    ∀ (pOk sOk : Bool) (i j : Fin (checkAnswerTrace pOk sOk).length),
      (checkAnswerTrace pOk sOk).get i = Ev.dbCommit →
      isAnnotStep ((checkAnswerTrace pOk sOk).get j) = true →
      (i : Nat) < (j : Nat) := by
  intro pOk sOk
  cases pOk <;> cases sOk <;> decide

theorem c6_witness :
    ((⟨3, by decide⟩ : Fin (checkAnswerTrace true true).length) : Nat)
      < ((⟨4, by decide⟩ : Fin (checkAnswerTrace true true).length) : Nat) :=
  c6_commit_before_annot true true ⟨3, by decide⟩ ⟨4, by decide⟩ (by decide) (by decide)

theorem endsHash_normHash (s : String) : endsHash (normHash s) = true := by
  unfold normHash
  by_cases h : endsHash s
  · rw [if_pos h]; exact h
  · rw [if_neg h]
    have hd : (s ++ "#").data = s.data ++ ['#'] := by
      rw [String.data_append]
    unfold endsHash
    rw [hd, List.getLast?_concat]
    rfl

/-- C7: infer_base_iri always returns a string ending in '#', chooses the
first namespace binding with an empty/None/math-addition prefix if one exists,
else the graph's identifier when truthy, else the hardcoded default; the two
examples of the spec evaluate as claimed. -/
theorem c7_infer_base_iri_spec :
    (∀ g : RGraph, endsHash (infer_base_iri g) = true)
    ∧ (∀ (g : RGraph) (uri : String), findMatchingNs g.namespaces = some uri →
        infer_base_iri g = normHash uri)
    ∧ (∀ (g : RGraph) (s : String), findMatchingNs g.namespaces = none →
        g.identifier = some s → s ≠ "" → infer_base_iri g = normHash s)
    ∧ (∀ g : RGraph, findMatchingNs g.namespaces = none →
        (g.identifier = none ∨ g.identifier = some "") → infer_base_iri g = defaultIRI)
    ∧ infer_base_iri ⟨[(some "", "http://x/")], none⟩ = "http://x/#"
    ∧ infer_base_iri ⟨[], none⟩ = defaultIRI
    ∧ endsHash defaultIRI = true := by
  refine ⟨?_, ?_, ?_, ?_, rfl, rfl, rfl⟩
  · intro g
    unfold infer_base_iri
    cases hm : findMatchingNs g.namespaces with
    | some uri => exact endsHash_normHash uri
    | none =>
      cases hid : g.identifier with
      | some s =>
        by_cases hs : s = ""
        · simp only [hs, if_pos rfl]
          rfl
        · simp only [if_neg hs]
          exact endsHash_normHash s
      | none => rfl
  · intro g uri h
    simp [infer_base_iri, h]
  · intro g s h1 h2 h3
    simp [infer_base_iri, h1, h2, h3]
  · intro g h1 h2
    rcases h2 with h2 | h2 <;> simp [infer_base_iri, h1, h2]

theorem c7_witness :
    infer_base_iri ⟨[(none, "http://y#")], none⟩ = normHash "http://y#" :=
  c7_infer_base_iri_spec.2.1 ⟨[(none, "http://y#")], none⟩ "http://y#" rfl

/-- C4 counterexample: the query orders by timestamp descending only — with two
attempts of the same user carrying equal timestamps, the identifier-ascending
output [id 1, id 2] satisfies everything the query guarantees, so the claimed
identifier-descending tie-break is not guaranteed. -/
theorem c4_counterexample :
    dashboardValid [mkRec 1 7 5, mkRec 2 7 5] 7 [mkRec 1 7 5, mkRec 2 7 5]
    ∧ ¬ newestFirstIdTie [mkRec 1 7 5, mkRec 2 7 5] := by
  refine ⟨⟨List.Perm.refl _, ?_⟩, ?_⟩
  · show List.Pairwise _ _
    decide
  · show ¬ List.Pairwise _ _
    decide

/-- C4 amended: the listing is ordered by creation timestamp descending (tie
order among equal timestamps is not specified); when timestamps are strictly
increasing the returned order is uniquely newest-first — attempts with
timestamps t1 < t2 < t3 and identifiers 1, 2, 3 come back as [3, 2, 1] — and
pagination returns a slice of that order, preserving the sortedness. -/
theorem c4_amended_ordering :
    (∀ out, dashboardValid [mkRec 1 7 1, mkRec 2 7 2, mkRec 3 7 3] 7 out →
      out = [mkRec 3 7 3, mkRec 2 7 2, mkRec 1 7 1])
    ∧ (∀ (l : List AttemptRec) (page per : Nat),
        sortedByTimestampDesc l → sortedByTimestampDesc (paginateItems l page per)) := by
  constructor
  · intro out h
    obtain ⟨hp, hs⟩ := h
    have hp' : out.Perm [mkRec 1 7 1, mkRec 2 7 2, mkRec 3 7 3] := hp
    have hmap : (out.map (fun r => r.timestamp)).Perm [1, 2, 3] := by
      simpa [mkRec] using hp'.map (fun r => r.timestamp)
    haveI : IsAntisymm Nat (fun x y : Nat => y ≤ x) :=
      ⟨fun a b h1 h2 => Nat.le_antisymm h2 h1⟩
    have hsorted : List.Sorted (fun x y : Nat => y ≤ x) (out.map (fun r => r.timestamp)) :=
      List.Pairwise.map _ (fun a b hab => hab) hs
    have hmapeq : out.map (fun r => r.timestamp) = [3, 2, 1] :=
      List.eq_of_perm_of_sorted (hmap.trans (by decide)) hsorted (by decide)
    obtain ⟨u, v, w, rfl⟩ : ∃ u v w, out = [u, v, w] := by
      cases out with
      | nil => simp at hmapeq
      | cons u t1 =>
        cases t1 with
        | nil => simp at hmapeq
        | cons v t2 =>
          cases t2 with
          | nil => simp at hmapeq
          | cons w t3 =>
            cases t3 with
            | nil => exact ⟨u, v, w, rfl⟩
            | cons x t4 => simp at hmapeq
    simp only [List.map_cons, List.map_nil, List.cons.injEq, and_true] at hmapeq
    obtain ⟨hu, hv, hw⟩ := hmapeq
    have humem : u = mkRec 1 7 1 ∨ u = mkRec 2 7 2 ∨ u = mkRec 3 7 3 := by
      simpa using hp'.subset (by simp : u ∈ [u, v, w])
    have hvmem : v = mkRec 1 7 1 ∨ v = mkRec 2 7 2 ∨ v = mkRec 3 7 3 := by
      simpa using hp'.subset (by simp : v ∈ [u, v, w])
    have hwmem : w = mkRec 1 7 1 ∨ w = mkRec 2 7 2 ∨ w = mkRec 3 7 3 := by
      simpa using hp'.subset (by simp : w ∈ [u, v, w])
    have hueq : u = mkRec 3 7 3 := by
      rcases humem with rfl | rfl | rfl
      · exact absurd hu (by decide)
      · exact absurd hu (by decide)
      · rfl
    have hveq : v = mkRec 2 7 2 := by
      rcases hvmem with rfl | rfl | rfl
      · exact absurd hv (by decide)
      · rfl
      · exact absurd hv (by decide)
    have hweq : w = mkRec 1 7 1 := by
      rcases hwmem with rfl | rfl | rfl
      · rfl
      · exact absurd hw (by decide)
      · exact absurd hw (by decide)
    rw [hueq, hveq, hweq]
  · intro l page per h
    show List.Pairwise _ _
    exact List.Pairwise.sublist
      (((l.drop ((page - 1) * per)).take_sublist per).trans
        (l.drop_sublist ((page - 1) * per))) h

theorem c4_amended_witness :
    [mkRec 3 7 3, mkRec 2 7 2, mkRec 1 7 1] = [mkRec 3 7 3, mkRec 2 7 2, mkRec 1 7 1] :=
  c4_amended_ordering.1 [mkRec 3 7 3, mkRec 2 7 2, mkRec 1 7 1]
    ⟨by decide, by show List.Pairwise _ _; decide⟩
